import Mathlib

/-!
Verification development for the agentic travel planner.

The source is a React chat component (`Chat` in the page component) together
with two Next.js API routes (`/api/flights`, `/api/hotels`).  The stateful
component is embedded as pure state-transition functions: React state
(`memory`, `flights`, `hotels`, the transcript) becomes an explicit
`ChatState`, `fetch` calls to the API routes become calls to the embedded
route handlers over an explicit database list, and the messages / network
requests of a turn are recorded in a `Trace`.

Strings are handled at the level of `List Char`; the character classes of the
JavaScript regexes (`[A-Za-z]`, `\d`, `\s`, `\w`) and `toUpperCase` /
`toLowerCase` are modelled on the ASCII range, which covers every character
class the source's patterns test for.
-/

/-! ### JS character classes and case mapping -/

/-- The class `[A-Za-z]` of the source's regexes. -/
def jsIsAlpha (c : Char) : Bool :=
  (65 ≤ c.toNat && c.toNat ≤ 90) || (97 ≤ c.toNat && c.toNat ≤ 122)

/-- The class `\d` of the source's regexes. -/
def jsIsDigit (c : Char) : Bool :=
  48 ≤ c.toNat && c.toNat ≤ 57

/-- The class `\s` of the source's regexes (ASCII whitespace: space, \t, \n, \v, \f, \r). -/
def jsIsSpace (c : Char) : Bool :=
  c.toNat == 32 || (9 ≤ c.toNat && c.toNat ≤ 13)

/-- The class `\w` (word character), used for the word boundary `\b` of the
arrow-source regex. -/
def jsIsWordChar (c : Char) : Bool :=
  jsIsAlpha c || jsIsDigit c || c.toNat == 95

/-- Behaviour of `String.prototype.toLowerCase` on one character (ASCII range). -/
def jsToLowerChar (c : Char) : Char :=
  if 65 ≤ c.toNat && c.toNat ≤ 90 then Char.ofNat (c.toNat + 32) else c

/-- Behaviour of `String.prototype.toUpperCase` on one character (ASCII range). -/
def jsToUpperChar (c : Char) : Char :=
  if 97 ≤ c.toNat && c.toNat ≤ 122 then Char.ofNat (c.toNat - 32) else c

/-- Behaviour of `s.toLowerCase()` (ASCII range). -/
def jsToLower (s : String) : String := String.mk (s.data.map jsToLowerChar)

/-- Behaviour of `s.toUpperCase()` (ASCII range). -/
def jsToUpper (s : String) : String := String.mk (s.data.map jsToUpperChar)

/-- Behaviour of `s.trim()`: strip whitespace from both ends. -/
def jsTrim (s : String) : String :=
  String.mk (((s.data.dropWhile jsIsSpace).reverse.dropWhile jsIsSpace).reverse)

/-- Case-insensitive character comparison, for the `/i` regex flag. -/
def ciCharEq (a b : Char) : Bool := jsToLowerChar a == jsToLowerChar b

/-! ### Regex-matching primitives

Each JS regex of the source is embedded as a first-match scanner over
`List Char`: the scanner tries to match at every position from the left and
returns the capture of the earliest successful position, exactly the
semantics of `String.prototype.match` with a non-global regex. -/

/-- Match a literal keyword case-insensitively at the head of the text,
returning the rest of the text. -/
def stripCI : List Char → List Char → Option (List Char)
  | [], l => some l
  | _ :: _, [] => none
  | k :: ks, c :: cs => if ciCharEq k c then stripCI ks cs else none

/-- Matching `\s+` at the head of the text: requires at least one whitespace character,
then consumes the maximal whitespace run (greedy; no backtracking is possible
because the following class `[A-Za-z]` is disjoint from `\s`). -/
def wsPlus : List Char → Option (List Char)
  | [] => none
  | c :: cs => if jsIsSpace c then some (cs.dropWhile jsIsSpace) else none

/-- Matching `([A-Za-z]{3})` at the head of the text: the capture. -/
def take3Alpha : List Char → Option (List Char)
  | a :: b :: c :: _ =>
    if jsIsAlpha a && jsIsAlpha b && jsIsAlpha c then some [a, b, c] else none
  | _ => none

/-- One attempt of `/kw\s+([A-Za-z]{3})/i` anchored at the current position. -/
def tryKw (kw l : List Char) : Option (List Char) :=
  (stripCI kw l).bind fun r => (wsPlus r).bind take3Alpha

/-- First match of `/kw\s+([A-Za-z]{3})/i` anywhere in the text
(`kw` is `from` or `to` in the source). -/
def scanKw (kw : List Char) : List Char → Option (List Char)
  | [] => tryKw kw []
  | l@(_ :: rest) => (tryKw kw l).orElse fun _ => scanKw kw rest

/-- One attempt of `([A-Za-z]{3})\s*->` anchored at the current position
(the `\b` boundary is checked by the caller). -/
def tryArrowSrc : List Char → Option (List Char)
  | a :: b :: c :: r =>
    if jsIsAlpha a && jsIsAlpha b && jsIsAlpha c then
      match r.dropWhile jsIsSpace with
      | '-' :: '>' :: _ => some [a, b, c]
      | _ => none
    else none
  | _ => none

/-- First match of `/\b([A-Za-z]{3})\s*->/i`; `prev` carries the character
before the current position so the word boundary `\b` can be decided. -/
def scanArrowSrc (prev : Option Char) : List Char → Option (List Char)
  | [] => none
  | l@(x :: rest) =>
    ((if prev.all (fun p => !jsIsWordChar p) then tryArrowSrc l else none)).orElse
      fun _ => scanArrowSrc (some x) rest

/-- One attempt of `->\s*([A-Za-z]{3})` anchored at the current position. -/
def tryArrowDst : List Char → Option (List Char)
  | '-' :: '>' :: r => take3Alpha (r.dropWhile jsIsSpace)
  | _ => none

/-- First match of the regex `->\s*([A-Za-z]{3})` with flag `i`. -/
def scanArrowDst : List Char → Option (List Char)
  | [] => none
  | l@(_ :: rest) => (tryArrowDst l).orElse fun _ => scanArrowDst rest

/-- One attempt of `\d{4}-\d{2}-\d{2}` anchored at the current position. -/
def tryDate : List Char → Option (List Char)
  | y1 :: y2 :: y3 :: y4 :: h1 :: m1 :: m2 :: h2 :: d1 :: d2 :: _ =>
    if jsIsDigit y1 && jsIsDigit y2 && jsIsDigit y3 && jsIsDigit y4 &&
       h1 == '-' && jsIsDigit m1 && jsIsDigit m2 &&
       h2 == '-' && jsIsDigit d1 && jsIsDigit d2 then
      some [y1, y2, y3, y4, h1, m1, m2, h2, d1, d2]
    else none
  | _ => none

/-- First match of `/(\d{4}-\d{2}-\d{2})/`. -/
def scanDate : List Char → Option (List Char)
  | [] => none
  | l@(_ :: rest) => (tryDate l).orElse fun _ => scanDate rest

/-- Does any of the alternatives match at the head of the text? -/
def startsWithCI (kw l : List Char) : Bool := (stripCI kw l).isSome

/-- Behaviour of `regex.test` for a literal alternative: case-insensitive
substring test. -/
def containsCI (kw : List Char) : List Char → Bool
  | [] => startsWithCI kw []
  | l@(_ :: rest) => startsWithCI kw l || containsCI kw rest

/-- The test `/hotel|stay|night|overnight/i.test(q)` (line 123 of the component). -/
def mentionsHotelB (q : List Char) : Bool :=
  containsCI "hotel".data q || containsCI "stay".data q ||
    containsCI "night".data q || containsCI "overnight".data q

/-! ### The intent extractor (component lines 109–112) -/

/-- The expression `q.match(/from\s+([A-Za-z]{3})/i)?.[1] || q.match(/\b([A-Za-z]{3})\s*->/i)?.[1]`,
uppercased.  (A capture is always three letters, hence never falsy, so `||`
coincides with `Option.orElse`.) -/
def extractFrom (q : List Char) : Option String :=
  ((scanKw "from".data q).orElse fun _ => scanArrowSrc none q).map
    fun cs => String.mk (cs.map jsToUpperChar)

/-- The match of `to\s+([A-Za-z]{3})` (flag `i`) or else of `->\s*([A-Za-z]{3})`,
capture group 1, uppercased. -/
def extractTo (q : List Char) : Option String :=
  ((scanKw "to".data q).orElse fun _ => scanArrowDst q).map
    fun cs => String.mk (cs.map jsToUpperChar)

/-- The expression `q.match(/(\d{4}-\d{2}-\d{2})/)?.[1]`. -/
def extractDate (q : List Char) : Option String :=
  (scanDate q).map String.mk

/-! ### Data model -/

inductive Persona where
  | Rich
  | Business
deriving DecidableEq, Repr

structure Flight where
  id : String
  «from» : String
  «to» : String
  date : String
  depart : String
  arrive : String
  airline : String
  «class» : String
  price : Int
  overnight : Bool
deriving DecidableEq, Repr

structure Hotel where
  id : String
  city : String
  name : String
  stars : Int
  price : Int
deriving DecidableEq, Repr

/-- The `lastQuery` record of `Memory`; also the query-parameter record of a
flight search. -/
structure Query where
  «from» : Option String
  «to» : Option String
  date : Option String
deriving DecidableEq, Repr

structure Memory where
  persona : Persona
  lastQuery : Option Query
  chosenFlightId : Option String
  hotelRequired : Option Bool
deriving DecidableEq, Repr


/-! ### Flight ranking (component lines 61–69, 79–93) -/

/-- Function `personaScore` (component lines 79–93), with the component's `memory.persona`
made an explicit argument. -/
def personaScore (persona : Persona) (f : Flight) : Int :=
  let cls := jsToLower f.«class»
  match persona with
  | .Rich =>
    (if cls = "first" then 3 else 0) + (if cls = "business" then 2 else 0) +
      (if f.overnight then -1 else 0)
  | .Business =>
    (if cls = "business" then 3 else 0) + (if cls = "economy" then 1 else 0) +
      (if !f.overnight then 1 else 0)

/-- The sort comparator `(a, b) => personaScore(b) - personaScore(a) || a.price - b.price`
(component line 67): the score difference, or on a score tie the price difference. -/
def flightCompare (persona : Persona) (a b : Flight) : Int :=
  if personaScore persona b - personaScore persona a ≠ 0 then
    personaScore persona b - personaScore persona a
  else a.price - b.price

/-- Whether `a` may be placed before `b` by the sort: the comparator is
non-positive. -/
def flightLE (persona : Persona) (a b : Flight) : Bool :=
  flightCompare persona a b ≤ 0

/-- The call `list.sort(comparator)` of `searchFlights`: `Array.prototype.sort` is a
stable sort and the comparator is a consistent total preorder, so the result
is the stable sort by `flightLE`. -/
def rankFlights (persona : Persona) (l : List Flight) : List Flight :=
  l.mergeSort (flightLE persona)

/-! ### The API routes (`/api/flights`, `/api/hotels`) -/

/-- The `/api/flights` route handler over the flight database: each provided
(truthy) query parameter filters by equality, `from`/`to` uppercased. -/
def flightsGET (db : List Flight) (fromP toP dateP : Option String) : List Flight :=
  let r1 := match fromP with
    | some f => if f ≠ "" then db.filter (fun x => x.«from» == jsToUpper f) else db
    | none => db
  let r2 := match toP with
    | some t => if t ≠ "" then r1.filter (fun x => x.«to» == jsToUpper t) else r1
    | none => r1
  match dateP with
    | some d => if d ≠ "" then r2.filter (fun x => x.date == d) else r2
    | none => r2

/-- The `/api/hotels` route handler over the hotel database: filter by
city (case-insensitive, when the parameter is truthy) and by minimum stars
(when the parameter is a truthy number). -/
def hotelsGET (db : List Hotel) (cityP : String) (minStarsP : Int) : List Hotel :=
  let city := jsToUpper cityP
  let r1 := if city ≠ "" then db.filter (fun h => jsToUpper h.city == city) else db
  if minStarsP ≠ 0 then r1.filter (fun h => minStarsP ≤ h.stars) else r1

/-! ### Hotel policy (component lines 71–77) -/

/-- The expression `memory.persona === 'Rich' ? 5 : 4` (component line 72). -/
def minStars (persona : Persona) : Int :=
  if persona = .Rich then 5 else 4

/-- The hotel sort comparator `(a, b) => b.stars - a.stars || a.price - b.price`
(component line 75). -/
def hotelCompare (a b : Hotel) : Int :=
  if b.stars - a.stars ≠ 0 then b.stars - a.stars else a.price - b.price

def hotelLE (a b : Hotel) : Bool :=
  hotelCompare a b ≤ 0

/-- Function `searchHotels` (component lines 71–77): fetch from the hotels route with
the persona's minimum stars, then stable-sort by descending stars, ties by
ascending price. -/
def searchHotels (db : List Hotel) (persona : Persona) (city : String) : List Hotel :=
  (hotelsGET db city (minStars persona)).mergeSort hotelLE

/-! ### The submit turn (component lines 102–132) -/

/-- The sticky merge of an extracted partial query into memory
(component line 114): `from ?? memory.lastQuery?.from`, and likewise for
`to` and `date`. -/
def mergeQuery (m : Memory) (fromE toE dateE : Option String) : Query :=
  { «from» := fromE.orElse fun _ => m.lastQuery.bind (·.«from»)
    «to» := toE.orElse fun _ => m.lastQuery.bind (·.«to»)
    date := dateE.orElse fun _ => m.lastQuery.bind (·.date) }

/-- The query parameters actually placed in the URL by `searchFlights`
(component line 62): entries with falsy values are dropped. -/
def sentQuery (q : Query) : Query :=
  { «from» := q.«from».bind fun s => if s ≠ "" then some s else none
    «to» := q.«to».bind fun s => if s ≠ "" then some s else none
    date := q.date.bind fun s => if s ≠ "" then some s else none }

/-- The React state of the component that a turn reads and writes. -/
structure ChatState where
  memory : Memory
  flights : List Flight
  hotels : List Hotel
deriving DecidableEq, Repr

/-- The expression `flights[0]?.overnight ?? false` (component line 123): the
overnight flag of the top flight of the list currently held in React state —
the result of the most recent *previous* search, since `setFlights` inside
this turn's `searchFlights` does not change the closure's `flights` binding. -/
def heldTopOvernight (st : ChatState) : Bool :=
  match st.flights with
  | f :: _ => f.overnight
  | [] => false

/-- The expression `(newMem.lastQuery?.to ?? flights[0]?.to) || ''`
(component line 125): the arrival city a submit turn resolves — the merged
query's `to` (the utterance's if present, else the remembered one), and
otherwise the destination of the top flight of the held list. -/
def resolvedArrivalCity (st : ChatState) (q : List Char) : String :=
  (((mergeQuery st.memory (extractFrom q) (extractTo q) (extractDate q)).«to»).orElse
      fun _ => st.flights.head?.map (·.«to»)).getD ""

/-- Observable effects of one turn.  Message texts built with run-time
formatting (currency, interpolated cities) are abstracted to the event and
its data: `hotelMsg` records the city named by the hotel agent message. -/
structure Trace where
  userMsg : Option String
  flightSearch : Option Query
  flightMsg : Bool
  hotelSearch : Option String
  hotelMsg : Option String
  selectMsg : Bool
deriving DecidableEq, Repr

def emptyTrace : Trace :=
  { userMsg := none, flightSearch := none, flightMsg := false,
    hotelSearch := none, hotelMsg := none, selectMsg := false }

/-- Function `handleSubmit` (component lines 102–132) as a state transition.

The databases behind the two API routes are explicit arguments.  Note that
within the JS closure the bindings `memory` and `flights` keep the values of
the render in which the handler was created: `flights` at lines 117, 123 and
125 is the list held *before* this turn's `searchFlights` call resolves, and
`memory.persona` read by `searchFlights`/`searchHotels` is the pre-turn
persona (which the turn never changes).  The two `setMemory` calls compose:
the second, functional one receives `newMem`. -/
def handleSubmit (fDb : List Flight) (hDb : List Hotel) (st : ChatState)
    (input : String) : ChatState × Trace :=
  let q := jsTrim input
  if q = "" then (st, emptyTrace)
  else
    let qc := q.data
    let fromE := extractFrom qc
    let toE := extractTo qc
    let dateE := extractDate qc
    let lq := mergeQuery st.memory fromE toE dateE
    let newMem : Memory := { st.memory with lastQuery := some lq }
    let doFlightSearch := fromE.isSome || toE.isSome || dateE.isSome || st.flights.isEmpty
    let sq := sentQuery lq
    let flights' :=
      if doFlightSearch then
        rankFlights st.memory.persona (flightsGET fDb sq.«from» sq.«to» sq.date)
      else st.flights
    let needsHotel := mentionsHotelB qc || heldTopOvernight st
    let arrivalCity := resolvedArrivalCity st qc
    if needsHotel && arrivalCity ≠ "" then
      ({ memory := { newMem with hotelRequired := some true }
         flights := flights'
         hotels := searchHotels hDb st.memory.persona arrivalCity },
       { userMsg := some q
         flightSearch := if doFlightSearch then some sq else none
         flightMsg := doFlightSearch
         hotelSearch := some arrivalCity
         hotelMsg := some arrivalCity
         selectMsg := false })
    else
      ({ memory := newMem, flights := flights', hotels := st.hotels },
       { userMsg := some q
         flightSearch := if doFlightSearch then some sq else none
         flightMsg := doFlightSearch
         hotelSearch := none
         hotelMsg := none
         selectMsg := false })

/-- Function `selectFlight` (component lines 139–149) as a state transition. -/
def selectFlight (hDb : List Hotel) (st : ChatState) (id : String) :
    ChatState × Trace :=
  match st.flights.find? (fun x => x.id == id) with
  | none => (st, emptyTrace)
  | some f =>
    let mem1 : Memory :=
      { st.memory with
          chosenFlightId := some id
          lastQuery := some { «from» := some f.«from», «to» := some f.«to», date := some f.date } }
    if f.overnight then
      ({ memory := { mem1 with hotelRequired := some true }
         flights := st.flights
         hotels := searchHotels hDb st.memory.persona f.«to» },
       { emptyTrace with
           selectMsg := true
           hotelSearch := some f.«to»
           hotelMsg := some f.«to» })
    else
      ({ memory := mem1, flights := st.flights, hotels := st.hotels },
       { emptyTrace with selectMsg := true })

/-! ### The memory store (`loadMemory`, component lines 25–35)

`loadMemory` runs `JSON.parse` on an untrusted blob and spreads the result
over the default `{ persona: 'Business' }` without validation, so it is
embedded one level below the typed `Memory`: field values are JSON values.
A JSON value type and the outcome of reading and parsing the stored blob: -/

inductive Json where
  | null
  | bool (b : Bool)
  | num (n : Int)
  | str (s : String)
  | arr (l : List Json)
  | obj (fields : List (String × Json))

/-- What `window.localStorage.getItem` + `JSON.parse` yield: the cell may be
absent (`getItem` returns `null`), hold text that `JSON.parse` throws on
(`malformed`), or parse to a JSON value. -/
inductive Blob where
  | absent
  | malformed
  | parsed (j : Json)

/-- Object-field lookup; on duplicate keys `JSON.parse` keeps the last
occurrence, so the later binding wins. -/
def jsonLookup : List (String × Json) → String → Option Json
  | [], _ => none
  | (k, v) :: rest, key =>
    (jsonLookup rest key).orElse fun _ => if k == key then some v else none

/-- The object returned by `loadMemory`, field by field.  A field is `none`
when the returned object does not have that property at all. -/
structure MemoryJ where
  persona : Option Json
  lastQuery : Option Json
  chosenFlightId : Option Json
  hotelRequired : Option Json

/-- The default `{ persona: 'Business' }`. -/
def defaultMemoryJ : MemoryJ :=
  { persona := some (Json.str "Business"), lastQuery := none,
    chosenFlightId := none, hotelRequired := none }

/-- Function `loadMemory` (component lines 25–35): absent cell and parse failure (the
`catch`) both give the default; a parsed object is spread over the default,
so each property present in the object overrides it; spreading a parsed
non-object (string, number, array, …) adds no named properties, leaving the
default. -/
def loadMemory : Blob → MemoryJ
  | .absent => defaultMemoryJ
  | .malformed => defaultMemoryJ
  | .parsed (Json.obj fields) =>
    { persona := some ((jsonLookup fields "persona").getD (Json.str "Business"))
      lastQuery := jsonLookup fields "lastQuery"
      chosenFlightId := jsonLookup fields "chosenFlightId"
      hotelRequired := jsonLookup fields "hotelRequired" }
  | .parsed _ => defaultMemoryJ

/-! ### Spec-side definitions

The next two definitions follow the words of the specification (not the
source); they are only compared against the source-derived behaviour. -/

/-- Spec §4.4: `isHotelRequired(utteranceMentionsHotel, topRankedFlightOvernight)`,
with the claim's reading that the second input is the overnight flag of the
top-ranked flight of *this turn's* flight search. -/
def specNeedsHotel (utteranceMentionsHotel : Bool) (thisTurnTop : Option Flight) : Bool :=
  utteranceMentionsHotel || (thisTurnTop.map (·.overnight)).getD false

/-- Spec §4.4 destination-city resolution: (1) the explicit destination
extracted from the current utterance, then (2) the destination of the
top-ranked flight of the most recent flight search. -/
def specResolveCity (utteranceTo : Option String) (topRanked : Option Flight) : Option String :=
  utteranceTo.orElse fun _ => topRanked.map (·.«to»)

/-- The overnight contribution of `personaScore`, separated out: what the
score of a flight whose class matches none of the recognised strings
reduces to. -/
def overnightScore (p : Persona) (overnight : Bool) : Int :=
  match p with
  | .Rich => if overnight then -1 else 0
  | .Business => if overnight then 0 else 1

/-! ### Concrete scenario data

Fixed inputs used by the scenario theorem, the counterexamples and the
witnesses. -/

/-- The default memory (persona `Business`, nothing else known). -/
def initialMemory : Memory :=
  { persona := .Business, lastQuery := none, chosenFlightId := none,
    hotelRequired := none }

/-- A fresh session: default memory, no flights or hotels held. -/
def initialState : ChatState :=
  { memory := initialMemory, flights := [], hotels := [] }

/-- The utterance of the §8 scenario. -/
def scenarioUtterance : String := "flights from NYC to LAX on 2025-11-10"

/-- An overnight NYC→LAX flight, the sole record of the flight database in
the counterexample run. -/
def nycLaxOvernight : Flight :=
  { id := "F1", «from» := "NYC", «to» := "LAX", date := "2025-11-10",
    depart := "21:00", arrive := "05:10", airline := "Acme", «class» := "economy",
    price := 320, overnight := true }

/-- A non-overnight flight to SFO held from an earlier search. -/
def sfoHeldFlight : Flight :=
  { id := "F2", «from» := "NYC", «to» := "SFO", date := "2025-11-09",
    depart := "09:00", arrive := "12:05", airline := "Acme", «class» := "economy",
    price := 210, overnight := false }

/-- A session that remembers destination LAX from an earlier turn and holds
the SFO flight as the most recent flight-search result. -/
def rememberedLaxState : ChatState :=
  { memory := { initialMemory with
      lastQuery := some { «from» := none, «to» := some "LAX", date := none } }
    flights := [sfoHeldFlight]
    hotels := [] }

/-- A five-star hotel, the sole record of the hotel database in the witness
run. -/
def grandHotel : Hotel :=
  { id := "H1", city := "LAX", name := "Grand", stars := 5, price := 900 }

/-- Two flights that tie completely under the Business comparator. -/
def tieFlightA : Flight :=
  { id := "T1", «from» := "NYC", «to» := "LAX", date := "2025-11-10",
    depart := "08:00", arrive := "11:00", airline := "Acme", «class» := "business",
    price := 400, overnight := false }

def tieFlightB : Flight :=
  { tieFlightA with id := "T2", depart := "09:00", arrive := "12:00" }

/-- A first-class flight with a mixed-case class string. -/
def firstClassFlight : Flight :=
  { tieFlightA with id := "T3", «class» := "First" }

/-- An economy flight with a mixed-case class string. -/
def economyClassFlight : Flight :=
  { tieFlightA with id := "T4", «class» := "Economy" }

/-! ### Facts about the two sort comparators -/

theorem hotelLE_eq_true_iff (a b : Hotel) :
    hotelLE a b = true ↔
      (b.stars < a.stars ∨ (b.stars = a.stars ∧ a.price ≤ b.price)) := by
  unfold hotelLE hotelCompare
  split_ifs with h <;> simp only [decide_eq_true_eq] <;> omega

theorem hotelLE_trans (a b c : Hotel) :
    hotelLE a b → hotelLE b c → hotelLE a c := by
  simp only [hotelLE_eq_true_iff]
  omega

theorem hotelLE_total (a b : Hotel) : hotelLE a b || hotelLE b a := by
  simp only [Bool.or_eq_true, hotelLE_eq_true_iff]
  omega

theorem flightLE_eq_true_iff (p : Persona) (a b : Flight) :
    flightLE p a b = true ↔
      (personaScore p b < personaScore p a ∨
        (personaScore p b = personaScore p a ∧ a.price ≤ b.price)) := by
  unfold flightLE flightCompare
  split_ifs with h <;> simp only [decide_eq_true_eq] <;> omega

theorem flightLE_trans (p : Persona) (a b c : Flight) :
    flightLE p a b → flightLE p b c → flightLE p a c := by
  simp only [flightLE_eq_true_iff]
  omega

theorem flightLE_total (p : Persona) (a b : Flight) :
    flightLE p a b || flightLE p b a := by
  simp only [Bool.or_eq_true, flightLE_eq_true_iff]
  omega

/-! ### Facts about the scanners -/

theorem dropWhile_append_of_all {p : Char → Bool} :
    ∀ (xs ys : List Char), (∀ x ∈ xs, p x = true) →
      (xs ++ ys).dropWhile p = ys.dropWhile p
  | [], _, _ => rfl
  | x :: xs, ys, h => by
    simp [List.dropWhile_cons, h x (List.mem_cons_self x xs),
      dropWhile_append_of_all xs ys fun c hc => h c (List.mem_cons_of_mem x hc)]

theorem alpha_not_space {c : Char} (h : jsIsAlpha c = true) : jsIsSpace c = false := by
  unfold jsIsAlpha at h
  unfold jsIsSpace
  simp only [Bool.or_eq_true, Bool.and_eq_true, decide_eq_true_eq, beq_iff_eq] at h
  simp only [Bool.or_eq_false_iff, Bool.and_eq_false_iff, beq_eq_false_iff_ne, ne_eq,
    decide_eq_false_iff_not, not_le]
  omega

theorem stripCI_self : ∀ (kw X : List Char), stripCI kw (kw ++ X) = some X
  | [], _ => rfl
  | k :: ks, X => by simp [stripCI, ciCharEq, stripCI_self ks X]

theorem scanKw_of_tryKw {kw l r : List Char} (h : tryKw kw l = some r) :
    scanKw kw l = some r := by
  cases l with
  | nil => simpa [scanKw] using h
  | cons x xs => simp [scanKw, h, Option.orElse]

theorem scanKw_keyword_ws_token (kw : List Char) (w : Char) (ws' : List Char)
    (t1 t2 t3 : Char) (tl rest : List Char)
    (hw : jsIsSpace w = true) (hws' : ∀ c ∈ ws', jsIsSpace c = true)
    (h1 : jsIsAlpha t1 = true) (h2 : jsIsAlpha t2 = true) (h3 : jsIsAlpha t3 = true) :
    scanKw kw (kw ++ ((w :: ws') ++ ((t1 :: t2 :: t3 :: tl) ++ rest))) =
      some [t1, t2, t3] := by
  apply scanKw_of_tryKw
  unfold tryKw
  rw [stripCI_self]
  simp only [Option.some_bind, List.cons_append, wsPlus, hw, if_true]
  rw [dropWhile_append_of_all ws' _ hws']
  simp only [List.cons_append, List.dropWhile_cons, alpha_not_space h1, if_neg]
  simp [take3Alpha, h1, h2, h3]

theorem resolvedArrivalCity_of_extractTo (st : ChatState) (q : List Char) (t : String)
    (ht : extractTo q = some t) : resolvedArrivalCity st q = t := by
  unfold resolvedArrivalCity mergeQuery
  simp [ht, Option.orElse]

/-! ### The claims -/

/-- C2: merging a turn's extracted partial query into `Memory.lastQuery` is
sticky — each sub-field of the merged query equals the extracted value when
present and the previously remembered value otherwise, so a sub-field the
new query does not re-specify is never erased. -/
theorem mergeQuery_sticky (m : Memory) (x : String) (f t d : Option String) :
    ((mergeQuery m (some x) t d).«from» = some x)
    ∧ ((mergeQuery m f (some x) d).«to» = some x)
    ∧ ((mergeQuery m f t (some x)).date = some x)
    ∧ ((mergeQuery m none t d).«from» = m.lastQuery.bind (·.«from»))
    ∧ ((mergeQuery m f none d).«to» = m.lastQuery.bind (·.«to»))
    ∧ ((mergeQuery m f t none).date = m.lastQuery.bind (·.date)) := by
  simp [mergeQuery, Option.orElse]

/-- C4: every hotel in the ranked list produced by a hotel search satisfies
the persona's minimum star rating (5 for Rich, 4 for Business), and the list
is sorted by descending stars with ties broken by ascending price. -/
theorem searchHotels_minStars_sorted (db : List Hotel) (p : Persona) (city : String) :
    (∀ h ∈ searchHotels db p city, minStars p ≤ h.stars)
    ∧ ((searchHotels db p city).Pairwise fun a b =>
        b.stars < a.stars ∨ (b.stars = a.stars ∧ a.price ≤ b.price)) := by
  constructor
  · intro h hm
    have hm' : h ∈ hotelsGET db city (minStars p) := List.mem_mergeSort.mp hm
    have hne : minStars p ≠ 0 := by cases p <;> simp [minStars]
    unfold hotelsGET at hm'
    rw [if_pos hne] at hm'
    exact of_decide_eq_true (List.mem_filter.mp hm').2
  · have h := List.sorted_mergeSort
      hotelLE_trans hotelLE_total (hotelsGET db city (minStars p))
    exact h.imp fun hab => (hotelLE_eq_true_iff _ _).mp hab

theorem searchHotels_minStars_sorted_witness :
    minStars .Rich ≤ grandHotel.stars :=
  (searchHotels_minStars_sorted [grandHotel] .Rich "LAX").1 grandHotel
    (List.mem_mergeSort.mpr (by decide))

/-- C5: ranking orders flights by descending persona score with ties broken
by ascending price; elements that tie completely keep their input order
(stability); and re-ranking an already-ranked list with the same persona
yields the same list (idempotence). -/
theorem rankFlights_sorted_stable_idempotent (p : Persona) (l : List Flight) :
    ((rankFlights p l).Pairwise fun a b =>
        personaScore p b < personaScore p a ∨
          (personaScore p b = personaScore p a ∧ a.price ≤ b.price))
    ∧ (∀ a b : Flight, personaScore p a = personaScore p b → a.price = b.price →
        List.Sublist [a, b] l → List.Sublist [a, b] (rankFlights p l))
    ∧ rankFlights p (rankFlights p l) = rankFlights p l := by
  refine ⟨?_, ?_, ?_⟩
  · have h := List.sorted_mergeSort
      (flightLE_trans p) (flightLE_total p) l
    exact h.imp fun hab => (flightLE_eq_true_iff p _ _).mp hab
  · intro a b hs hp hsub
    exact List.pair_sublist_mergeSort (flightLE_trans p) (flightLE_total p)
      ((flightLE_eq_true_iff p a b).mpr (Or.inr ⟨hs.symm, le_of_eq hp⟩)) hsub
  · exact List.mergeSort_of_sorted
      (List.sorted_mergeSort (flightLE_trans p) (flightLE_total p) l)

theorem rankFlights_sorted_stable_idempotent_witness :
    personaScore .Business tieFlightA = personaScore .Business tieFlightB
    ∧ List.Sublist [tieFlightA, tieFlightB]
        (rankFlights .Business [tieFlightA, tieFlightB]) :=
  ⟨by decide,
   (rankFlights_sorted_stable_idempotent .Business [tieFlightA, tieFlightB]).2.1
      tieFlightA tieFlightB (by decide) (by decide) (List.Sublist.refl _)⟩

/-- C6: with the same overnight flag, a first-class flight scores at least a
business-class flight under Rich, and a business-class flight scores at
least an economy flight under Business; class comparison is
case-insensitive; an unrecognised class string contributes 0, leaving only
the overnight contribution. -/
theorem personaScore_monotone_ci (f g : Flight) (hov : f.overnight = g.overnight) :
    (jsToLower f.«class» = "first" → jsToLower g.«class» = "business" →
      personaScore .Rich g ≤ personaScore .Rich f)
    ∧ (jsToLower f.«class» = "business" → jsToLower g.«class» = "economy" →
      personaScore .Business g ≤ personaScore .Business f)
    ∧ (∀ p, jsToLower f.«class» = jsToLower g.«class» →
      personaScore p f = personaScore p g)
    ∧ (∀ p, jsToLower f.«class» ∉ (["first", "business", "economy"] : List String) →
      personaScore p f = overnightScore p f.overnight) := by
  refine ⟨?_, ?_, ?_, ?_⟩
  · intro hf hg
    simp [personaScore, hf, hg, hov]
  · intro hf hg
    simp [personaScore, hf, hg, hov]
  · intro p hfg
    cases p <;> simp [personaScore, hfg, hov]
  · intro p hni
    simp only [List.mem_cons, List.mem_singleton, not_or] at hni
    obtain ⟨h1, h2, h3⟩ := hni
    cases p <;> cases hb : f.overnight <;>
      simp [personaScore, overnightScore, h1, h2, h3.1, hb]

theorem personaScore_monotone_ci_witness :
    personaScore .Rich tieFlightA ≤ personaScore .Rich firstClassFlight
    ∧ personaScore .Business economyClassFlight ≤ personaScore .Business tieFlightA :=
  ⟨(personaScore_monotone_ci firstClassFlight tieFlightA rfl).1 rfl rfl,
   (personaScore_monotone_ci tieFlightA economyClassFlight rfl).2.1 rfl rfl⟩

/-- C7: for every persisted blob — absent, unparseable, or parsed to any
JSON value — `loadMemory` returns (it is a total function, so no error
reaches the caller) the persisted object merged over the default
`{persona: Business}`; it is the default when nothing usable is persisted,
and the returned record always has its `persona` property present, even when
the parsed object lacks one. -/
theorem loadMemory_total_defined (b : Blob) :
    ((loadMemory b).persona.isSome = true)
    ∧ (loadMemory .absent = defaultMemoryJ)
    ∧ (loadMemory .malformed = defaultMemoryJ)
    ∧ (∀ fields, jsonLookup fields "persona" = none →
        (loadMemory (.parsed (Json.obj fields))).persona = some (Json.str "Business")) := by
  refine ⟨?_, rfl, rfl, ?_⟩
  · cases b with
    | absent => rfl
    | malformed => rfl
    | parsed j => cases j <;> rfl
  · intro fields hf
    simp [loadMemory, hf]

theorem loadMemory_total_defined_witness :
    jsonLookup [] "persona" = none
    ∧ (loadMemory (.parsed (Json.obj []))).persona = some (Json.str "Business") :=
  ⟨rfl, (loadMemory_total_defined (.parsed (Json.obj []))).2.2.2 [] rfl⟩

/-- C8: on the utterance "flights from NYC to LAX on 2025-11-10" with
persona Business, the extractor yields exactly from NYC, to LAX and date
2025-11-10, and the flight search of that turn is issued with precisely
that triple as its query parameters (for any flight/hotel databases). -/
theorem scenario_extract_and_search (fDb : List Flight) (hDb : List Hotel) :
    extractFrom scenarioUtterance.data = some "NYC"
    ∧ extractTo scenarioUtterance.data = some "LAX"
    ∧ extractDate scenarioUtterance.data = some "2025-11-10"
    ∧ mentionsHotelB scenarioUtterance.data = false
    ∧ (handleSubmit fDb hDb initialState scenarioUtterance).2.flightSearch =
        some { «from» := some "NYC", «to» := some "LAX", date := some "2025-11-10" } :=
  ⟨rfl, rfl, rfl, rfl, rfl⟩

/-- C9: selecting a flight id that is not in the currently held flight list
is a no-op — the state (memory included) is unchanged and the trace is
empty: no search is issued and no message is appended. -/
theorem selectFlight_nonexistent_noop (hDb : List Hotel) (st : ChatState) (id : String)
    (h : st.flights.find? (fun x => x.id == id) = none) :
    selectFlight hDb st id = (st, emptyTrace) := by
  unfold selectFlight
  rw [h]

theorem selectFlight_nonexistent_noop_witness :
    selectFlight [] initialState "F9" = (initialState, emptyTrace) :=
  selectFlight_nonexistent_noop [] initialState "F9" rfl

/-- C10: the from/to extraction is a prefix match, not a whole-token match —
when the keyword is followed by whitespace and an alphabetic token longer
than three letters, extraction returns the first three letters of the token
uppercased rather than leaving the field absent. -/
theorem extract_token_head_match (ws tok rest : List Char)
    (hws : ws ≠ []) (hw : ∀ c ∈ ws, jsIsSpace c = true)
    (hlen : 3 < tok.length) (ha : ∀ c ∈ tok, jsIsAlpha c = true) :
    extractFrom ("from".data ++ ws ++ tok ++ rest) =
        some (String.mk ((tok.take 3).map jsToUpperChar))
    ∧ extractTo ("to".data ++ ws ++ tok ++ rest) =
        some (String.mk ((tok.take 3).map jsToUpperChar)) := by
  obtain ⟨w, ws', rfl⟩ : ∃ w ws', ws = w :: ws' := by
    cases ws with
    | nil => exact absurd rfl hws
    | cons w ws' => exact ⟨w, ws', rfl⟩
  obtain ⟨t1, t2, t3, t4, tok', rfl⟩ :
      ∃ t1 t2 t3 t4 tok', tok = t1 :: t2 :: t3 :: t4 :: tok' := by
    rcases tok with _ | ⟨t1, _ | ⟨t2, _ | ⟨t3, _ | ⟨t4, tok'⟩⟩⟩⟩
    · simp at hlen
    · simp at hlen
    · simp at hlen
    · simp at hlen
    · exact ⟨t1, t2, t3, t4, tok', rfl⟩
  have hw1 : jsIsSpace w = true := hw w (List.mem_cons_self w ws')
  have hws2 : ∀ c ∈ ws', jsIsSpace c = true :=
    fun c hc => hw c (List.mem_cons_of_mem w hc)
  have h1 : jsIsAlpha t1 = true := ha t1 (by simp)
  have h2 : jsIsAlpha t2 = true := ha t2 (by simp)
  have h3 : jsIsAlpha t3 = true := ha t3 (by simp)
  constructor
  · have hscan := scanKw_keyword_ws_token "from".data w ws' t1 t2 t3 (t4 :: tok')
      rest hw1 hws2 h1 h2 h3
    unfold extractFrom
    rw [show "from".data ++ (w :: ws') ++ (t1 :: t2 :: t3 :: t4 :: tok') ++ rest =
        "from".data ++ ((w :: ws') ++ ((t1 :: t2 :: t3 :: t4 :: tok') ++ rest)) by
      simp [List.append_assoc]]
    rw [hscan]
    rfl
  · have hscan := scanKw_keyword_ws_token "to".data w ws' t1 t2 t3 (t4 :: tok')
      rest hw1 hws2 h1 h2 h3
    unfold extractTo
    rw [show "to".data ++ (w :: ws') ++ (t1 :: t2 :: t3 :: t4 :: tok') ++ rest =
        "to".data ++ ((w :: ws') ++ ((t1 :: t2 :: t3 :: t4 :: tok') ++ rest)) by
      simp [List.append_assoc]]
    rw [hscan]
    rfl

theorem extract_token_head_match_witness :
    extractFrom "from London".data = some "LON"
    ∧ extractTo "to London".data = some "LON" :=
  extract_token_head_match [' '] "London".data [] (by decide) (by decide)
    (by decide) (by decide)

/-- C1 (amended): on a non-empty text turn, a hotel search is issued exactly
when the utterance matches a hotel keyword or the top flight of the list
held *before* this turn's search (the most recent previous search result)
is overnight, and the resolved arrival city is non-empty; the list returned
by this turn's own flight search plays no part in the decision. -/
theorem hotelSearch_iff_held_list_requirement (fDb : List Flight) (hDb : List Hotel)
    (st : ChatState) (input : String) (h : jsTrim input ≠ "") :
    (handleSubmit fDb hDb st input).2.hotelSearch.isSome = true ↔
      ((mentionsHotelB (jsTrim input).data = true ∨ heldTopOvernight st = true) ∧
        resolvedArrivalCity st (jsTrim input).data ≠ "") := by
  unfold handleSubmit
  rw [if_neg h]
  dsimp only
  by_cases hc : ((mentionsHotelB (jsTrim input).data || heldTopOvernight st) &&
      decide (resolvedArrivalCity st (jsTrim input).data ≠ "")) = true
  · rw [if_pos hc]
    simp only [Bool.and_eq_true, Bool.or_eq_true, decide_eq_true_eq] at hc
    exact iff_of_true rfl hc
  · rw [if_neg hc]
    refine iff_of_false (by simp) ?_
    rintro ⟨h1, h2⟩
    apply hc
    simp only [Bool.and_eq_true, Bool.or_eq_true, decide_eq_true_eq]
    exact ⟨h1, h2⟩

theorem hotelSearch_iff_held_list_requirement_witness :
    jsTrim "need hotel" ≠ ""
    ∧ ((handleSubmit [] [] rememberedLaxState "need hotel").2.hotelSearch.isSome = true ↔
        ((mentionsHotelB (jsTrim "need hotel").data = true ∨
            heldTopOvernight rememberedLaxState = true) ∧
          resolvedArrivalCity rememberedLaxState (jsTrim "need hotel").data ≠ "")) :=
  ⟨by decide,
   hotelSearch_iff_held_list_requirement [] [] rememberedLaxState "need hotel" (by decide)⟩

/-- C1 (counterexample): a turn whose utterance has no hotel keyword, whose
flight search returns an overnight top-ranked flight, and whose arrival city
is resolvable: the claim requires a hotel search, but the code issues none
and leaves `hotelRequired` unset, because it consults the pre-turn (empty)
flight list rather than this turn's search result. -/
theorem hotelSearch_ignores_fresh_results :
    specNeedsHotel (mentionsHotelB (jsTrim scenarioUtterance).data)
        ((handleSubmit [nycLaxOvernight] [] initialState scenarioUtterance).1.flights.head?)
      = true
    ∧ resolvedArrivalCity initialState (jsTrim scenarioUtterance).data ≠ ""
    ∧ (handleSubmit [nycLaxOvernight] [] initialState scenarioUtterance).2.hotelSearch = none
    ∧ (handleSubmit [nycLaxOvernight] [] initialState scenarioUtterance).1.memory.hotelRequired
        = none := by
  have hfl : (handleSubmit [nycLaxOvernight] [] initialState scenarioUtterance).1.flights
      = [nycLaxOvernight] := by
    show rankFlights Persona.Business
        (flightsGET [nycLaxOvernight] (some "NYC") (some "LAX") (some "2025-11-10"))
      = [nycLaxOvernight]
    rw [show flightsGET [nycLaxOvernight] (some "NYC") (some "LAX") (some "2025-11-10")
        = [nycLaxOvernight] from rfl]
    simp [rankFlights]
  refine ⟨?_, by decide, rfl, rfl⟩
  rw [hfl]
  decide

/-- C3 (amended): when a submit turn issues a hotel search, the city it
searches (and names in the agent message) is the merged query's destination
— the utterance's explicit `to` when present, otherwise the remembered one —
falling back to the destination of the top flight of the held list; when
that resolution is empty, no hotel search is performed and no hotel message
is emitted, and the turn still returns normally. -/
theorem hotelCity_resolution_order (fDb : List Flight) (hDb : List Hotel)
    (st : ChatState) (input : String) (h : jsTrim input ≠ "") :
    (∀ city, (handleSubmit fDb hDb st input).2.hotelSearch = some city →
        city = resolvedArrivalCity st (jsTrim input).data)
    ∧ ((handleSubmit fDb hDb st input).2.hotelMsg =
        (handleSubmit fDb hDb st input).2.hotelSearch)
    ∧ (resolvedArrivalCity st (jsTrim input).data = "" →
        (handleSubmit fDb hDb st input).2.hotelSearch = none ∧
          (handleSubmit fDb hDb st input).2.hotelMsg = none)
    ∧ (∀ t, extractTo (jsTrim input).data = some t →
        resolvedArrivalCity st (jsTrim input).data = t) := by
  unfold handleSubmit
  rw [if_neg h]
  dsimp only
  by_cases hc : ((mentionsHotelB (jsTrim input).data || heldTopOvernight st) &&
      decide (resolvedArrivalCity st (jsTrim input).data ≠ "")) = true
  · rw [if_pos hc]
    simp only [Bool.and_eq_true, decide_eq_true_eq] at hc
    refine ⟨?_, rfl, ?_, ?_⟩
    · intro city hcity
      exact (Option.some_inj.mp hcity).symm
    · intro hempty
      exact absurd hempty hc.2
    · intro t ht
      exact resolvedArrivalCity_of_extractTo st (jsTrim input).data t ht
  · rw [if_neg hc]
    refine ⟨?_, rfl, fun _ => ⟨rfl, rfl⟩, ?_⟩
    · intro city hcity
      exact absurd hcity (by simp)
    · intro t ht
      exact resolvedArrivalCity_of_extractTo st (jsTrim input).data t ht

theorem hotelCity_resolution_order_witness :
    jsTrim "need hotel" ≠ ""
    ∧ "LAX" = resolvedArrivalCity rememberedLaxState (jsTrim "need hotel").data :=
  ⟨by decide,
   (hotelCity_resolution_order [] [] rememberedLaxState "need hotel" (by decide)).1 "LAX" rfl⟩

/-- C3 (counterexample): a turn that requires a hotel, extracts no
destination from the utterance, remembers `to = LAX` from an earlier turn,
and holds a top-ranked flight to SFO: the spec's priority order resolves
SFO, but the code searches hotels in LAX. -/
theorem hotelCity_prefers_memory_over_top_flight :
    (handleSubmit [] [] rememberedLaxState "need hotel").2.hotelSearch = some "LAX"
    ∧ extractTo (jsTrim "need hotel").data = none
    ∧ specResolveCity (extractTo (jsTrim "need hotel").data)
        (rememberedLaxState.flights.head?) = some "SFO"
    ∧ ("LAX" : String) ≠ "SFO" :=
  ⟨rfl, rfl, rfl, by decide⟩
